import Mathlib

/-!
Verification of the ysfx plugin processor and parsing layer.

The definitions below are a shallow embedding of the corresponding C++ code:
the undo history, retry-load machine, background worker, and preset request
handling come from src/plugin/processor.cpp; the bank, preset, slider-mask and
parser models cover the core library interfaces declared in src/include/ysfx.h
whose implementation files are exercised by src/tests.  Machine integers are
modelled as Nat and Int; deques as lists with the front at index 0.
-/

/-- An effect state: ordered (slider index, value) pairs plus the opaque
serialize blob, compared by deep equality (ysfx_is_state_equal). -/
structure YsfxState where
  sliders : List (Nat × Int)
  data : List Nat
deriving DecidableEq, Repr

/-! ## Undo history (YsfxProcessor::Impl, processor.cpp) -/

/-- Undo-relevant fields of YsfxProcessor::Impl: the snapshot deque
(m_undoStack, front at index 0), the integer cursor (m_undoPosition,
initially -1), and the two flags maintained by updateUndoState. -/
structure UndoState where
  undoStack : List YsfxState
  undoPosition : Int
  hasUndo : Bool
  hasRedo : Bool
deriving DecidableEq, Repr

/-- m_maxUndoStack. -/
def maxUndoStack : Nat := 64

/-- YsfxProcessor::Impl::updateUndoState: m_hasUndo = m_undoPosition > 0;
m_hasRedo = (size_t)(m_undoPosition + 1) < m_undoStack.size(). -/
def updateUndoState (stack : List YsfxState) (pos : Int) : Bool × Bool :=
  (decide (pos > 0), decide ((pos + 1).toNat < stack.length))

/-- YsfxProcessor::Impl::pushUndoState (processor.cpp lines 1047-1083),
with the freshly saved effect state passed in as an argument.  The C++
guard (m_undoPosition < m_undoStack.size()) converts the int cursor to
size_t, hence it holds exactly when the cursor is nonnegative and below
the size; erase(begin()+offset, end()) is List.take offset. -/
def pushUndoState (state : YsfxState) (s : UndoState) : UndoState :=
  if 0 ≤ s.undoPosition ∧ s.undoPosition.toNat < s.undoStack.length ∧
      s.undoStack[s.undoPosition.toNat]? = some state then
    s
  else
    let offset : Nat := min s.undoStack.length (max 1 (s.undoPosition + 1)).toNat
    let grown := s.undoStack.take offset ++ [state]
    let stack := if grown.length > maxUndoStack then grown.tail else grown
    let pos : Int :=
      ((grown.length : Int) - 1) - (if grown.length > maxUndoStack then 1 else 0)
    let flags := updateUndoState stack pos
    { undoStack := stack, undoPosition := pos, hasUndo := flags.1, hasRedo := flags.2 }

/-- YsfxProcessor::Impl::popUndoState (processor.cpp lines 1085-1098):
the cursor moves to max(-1, cursor - 1); when it lands below zero nothing
is loaded and the flags are left alone; otherwise the snapshot at the new
cursor is handed to ysfx_load_serialized_state (the second component). -/
def popUndoState (s : UndoState) : UndoState × Option YsfxState :=
  let pos : Int := max (-1) (s.undoPosition - 1)
  if pos < 0 then
    ({ s with undoPosition := pos }, none)
  else
    let flags := updateUndoState s.undoStack pos
    ({ s with undoPosition := pos, hasUndo := flags.1, hasRedo := flags.2 },
      s.undoStack[pos.toNat]?)

/-- The processor starts with an empty undo deque and the cursor at -1. -/
def initialUndoState : UndoState :=
  { undoStack := [], undoPosition := -1, hasUndo := false, hasRedo := false }

def stateA : YsfxState := { sliders := [(0, 0)], data := [] }

def stateB : YsfxState := { sliders := [(0, 1)], data := [] }

/-- Helper: the element at the index just past a list, inside an append. -/
theorem getElem?_append_singleton (l : List YsfxState) (a : YsfxState) :
    (l ++ [a])[l.length]? = some a := by
  induction l with
  | nil => rfl
  | cons x xs ih =>
      simp only [List.cons_append, List.length_cons, List.getElem?_cons_succ]
      exact ih

/-- Helper: taking at most the length is the same through a min clamp. -/
theorem take_min_length (l : List YsfxState) (k : Nat) :
    l.take (min l.length k) = l.take k := by
  rcases le_total k l.length with h | h
  · rw [min_eq_right h]
  · rw [min_eq_left h, List.take_length, List.take_of_length_le h]

/-- Helper: the tail of an append with a nonempty prefix. -/
theorem tail_append_singleton (l : List YsfxState) (a : YsfxState) (h : l ≠ []) :
    (l ++ [a]).tail = l.tail ++ [a] := by
  cases l with
  | nil => exact absurd rfl h
  | cons x xs => rfl

/-- Helper: the C++ guard of pushUndoState, with its redundant bound dropped. -/
theorem pushUndoState_guard_iff (state : YsfxState) (s : UndoState) :
    (0 ≤ s.undoPosition ∧ s.undoPosition.toNat < s.undoStack.length ∧
      s.undoStack[s.undoPosition.toNat]? = some state) ↔
    (0 ≤ s.undoPosition ∧ s.undoStack[s.undoPosition.toNat]? = some state) := by
  constructor
  · rintro ⟨h1, _, h3⟩
    exact ⟨h1, h3⟩
  · rintro ⟨h1, h3⟩
    refine ⟨h1, ?_, h3⟩
    by_contra hc
    rw [List.getElem?_eq_none (Nat.le_of_not_lt hc)] at h3
    exact Option.noConfusion h3

/-- Helper: pushUndoState on a state that differs from the snapshot at the
cursor, written without the min clamp of the erase offset. -/
theorem pushUndoState_of_new (state : YsfxState) (s : UndoState)
    (h : ¬(0 ≤ s.undoPosition ∧ s.undoStack[s.undoPosition.toNat]? = some state)) :
    pushUndoState state s =
      (let grown := s.undoStack.take (max 1 (s.undoPosition + 1)).toNat ++ [state]
       let stack := if grown.length > maxUndoStack then grown.tail else grown
       let pos : Int :=
         ((grown.length : Int) - 1) - (if grown.length > maxUndoStack then 1 else 0)
       { undoStack := stack, undoPosition := pos,
         hasUndo := (updateUndoState stack pos).1,
         hasRedo := (updateUndoState stack pos).2 }) := by
  rw [pushUndoState, if_neg (fun hg => h ((pushUndoState_guard_iff state s).mp hg))]
  simp only [take_min_length]

/-- Helper: pushing a state equal to the snapshot at the cursor is a no-op. -/
theorem pushUndoState_of_equal (state : YsfxState) (s : UndoState)
    (h : 0 ≤ s.undoPosition ∧ s.undoStack[s.undoPosition.toNat]? = some state) :
    pushUndoState state s = s := by
  rw [pushUndoState, if_pos ((pushUndoState_guard_iff state s).mpr h)]

/-- Helper: after a genuine push, the cursor is nonnegative and points at the
state just pushed, so an immediate second push of the same state dedups. -/
theorem pushUndoState_guard_after (state : YsfxState) (s : UndoState)
    (h : ¬(0 ≤ s.undoPosition ∧ s.undoStack[s.undoPosition.toNat]? = some state)) :
    0 ≤ (pushUndoState state s).undoPosition ∧
      (pushUndoState state s).undoStack[(pushUndoState state s).undoPosition.toNat]? =
        some state := by
  rw [pushUndoState_of_new state s h]
  simp only []
  set t := s.undoStack.take (max 1 (s.undoPosition + 1)).toNat with ht
  by_cases hp : (t ++ [state]).length > maxUndoStack
  · rw [if_pos hp, if_pos hp]
    have hlen : t.length + 1 > maxUndoStack := by simpa using hp
    have htne : t ≠ [] := by
      intro he
      rw [he] at hlen
      simp [maxUndoStack] at hlen
    have h1 : 1 ≤ t.length := Nat.one_le_iff_ne_zero.mpr (fun hz => htne (List.eq_nil_of_length_eq_zero hz))
    constructor
    · simp only [List.length_append, List.length_singleton]
      omega
    · rw [tail_append_singleton t state htne]
      have hidx : ((((t ++ [state]).length : Int) - 1) - 1).toNat = t.tail.length := by
        simp only [List.length_append, List.length_singleton, List.length_tail]
        omega
      rw [hidx]
      exact getElem?_append_singleton t.tail state
  · rw [if_neg hp, if_neg hp]
    constructor
    · simp only [List.length_append, List.length_singleton]
      omega
    · have hidx : ((((t ++ [state]).length : Int) - 1) - 0).toNat = t.length := by
        simp only [List.length_append, List.length_singleton]
        omega
      rw [hidx]
      exact getElem?_append_singleton t state

/-- C1 (amended): for every push of an undo point, if the state saved from the
effect is deep-equal to the snapshot at the current cursor, the undo deque and
cursor are unchanged; otherwise every snapshot after the cursor is removed -
except that truncation never reaches below index 1, so when the cursor has been
undone below the front of a nonempty deque the front snapshot survives - the
new state is appended and the cursor advances to the last entry; if the deque
size then exceeds the cap of 64, the front snapshot is popped and the cursor,
still on the last entry, retreats by one.  Pushing the same state twice in a
row equals pushing it once, and a push onto the fresh processor state leaves
exactly one snapshot. -/
theorem pushUndoState_spec (state : YsfxState) (s : UndoState) :
    ((0 ≤ s.undoPosition ∧ s.undoStack[s.undoPosition.toNat]? = some state) →
      pushUndoState state s = s) ∧
    (¬(0 ≤ s.undoPosition ∧ s.undoStack[s.undoPosition.toNat]? = some state) →
      (pushUndoState state s).undoStack =
        (if (s.undoStack.take (max 1 (s.undoPosition + 1)).toNat ++ [state]).length ≤ maxUndoStack
         then s.undoStack.take (max 1 (s.undoPosition + 1)).toNat ++ [state]
         else (s.undoStack.take (max 1 (s.undoPosition + 1)).toNat ++ [state]).tail) ∧
      (pushUndoState state s).undoPosition =
        ((pushUndoState state s).undoStack.length : Int) - 1) ∧
    pushUndoState state (pushUndoState state s) = pushUndoState state s ∧
    (pushUndoState state initialUndoState).undoStack = [state] := by
  refine ⟨pushUndoState_of_equal state s, ?_, ?_, ?_⟩
  · intro h
    rw [pushUndoState_of_new state s h]
    simp only []
    set t := s.undoStack.take (max 1 (s.undoPosition + 1)).toNat with ht
    by_cases hp : (t ++ [state]).length > maxUndoStack
    · rw [if_pos hp, if_pos hp, if_neg (Nat.not_le_of_lt hp)]
      have hlen : t.length + 1 > maxUndoStack := by simpa using hp
      have htne : t ≠ [] := by
        intro he
        rw [he] at hlen
        simp [maxUndoStack] at hlen
      have h1 : 1 ≤ t.length :=
        Nat.one_le_iff_ne_zero.mpr (fun hz => htne (List.eq_nil_of_length_eq_zero hz))
      refine ⟨rfl, ?_⟩
      rw [tail_append_singleton t state htne]
      simp only [List.length_append, List.length_singleton, List.length_tail]
      omega
    · rw [if_neg hp, if_neg hp, if_pos (Nat.le_of_not_lt hp)]
      refine ⟨rfl, ?_⟩
      simp only [List.length_append, List.length_singleton]
      omega
  · by_cases h : 0 ≤ s.undoPosition ∧ s.undoStack[s.undoPosition.toNat]? = some state
    · rw [pushUndoState_of_equal state s h, pushUndoState_of_equal state s h]
    · exact pushUndoState_of_equal state (pushUndoState state s)
        (pushUndoState_guard_after state s h)
  · have h : ¬(0 ≤ initialUndoState.undoPosition ∧
        initialUndoState.undoStack[initialUndoState.undoPosition.toNat]? = some state) := by
      intro hc
      exact absurd hc.1 (by norm_num [initialUndoState])
    rw [pushUndoState_of_new state initialUndoState h]
    norm_num [initialUndoState, maxUndoStack]

/-- C1 counterexample: the claim as stated fails at the reachable configuration
with the cursor undone to -1 above a nonempty deque.  Push a snapshot, undo it
(the cursor lands on -1 with the deque still holding one entry), then push a
different state: the claim predicts that every snapshot after the cursor is
removed, leaving only the new state, but the code keeps the front snapshot. -/
theorem pushUndoState_cursor_bottom_cex :
    (pushUndoState stateB (popUndoState (pushUndoState stateA initialUndoState)).1).undoStack
      ≠ [stateB] ∧
    (pushUndoState stateB (popUndoState (pushUndoState stateA initialUndoState)).1).undoStack
      = [stateA, stateB] := by
  constructor
  · decide
  · decide

/-! ## Retry-load state machine (processor.h / processor.cpp) -/

/-- The RetryState enum.  The header in the tree lists ok, mustRetry and
retrying, but processor.cpp also stores RetryState::failedRetry (lines 315 and
1252), so the machine carries four states. -/
inductive RetryState where
  | ok
  | mustRetry
  | retrying
  | failedRetry
deriving DecidableEq, Repr

/-- The fields m_failedLoad and m_failedLoadState of YsfxProcessor::Impl. -/
structure RetryMachine where
  failedLoad : RetryState
  failedLoadState : Option YsfxState
deriving DecidableEq, Repr

/-- YsfxProcessor::retryLoad (processor.cpp lines 273-282): returns the current
state (first component) and stores retrying exactly when it read mustRetry
(second component is the state left in m_failedLoad). -/
def retryLoad (s : RetryState) : RetryState × RetryState :=
  if s = RetryState.mustRetry then (s, RetryState.retrying) else (s, s)

/-- The retry bookkeeping of YsfxProcessor::Impl::Background::processLoadRequest
(processor.cpp lines 1238-1260), after the new effect has been installed:
compiled tells whether ysfx_is_compiled holds for the freshly loaded effect,
reqInitialState is the initial state carried by the load request, and
fileExists whether the requested path exists as a file. -/
def processLoadRequest (m : RetryMachine) (compiled : Bool)
    (reqInitialState : Option YsfxState) (fileExists : Bool) : RetryMachine :=
  if !compiled then
    match reqInitialState with
    | some st =>
        if !fileExists then
          { failedLoad := RetryState.mustRetry, failedLoadState := some st }
        else
          { failedLoad := RetryState.failedRetry, failedLoadState := some st }
    | none => m
  else
    { failedLoad := RetryState.ok, failedLoadState := none }

/-- C2 (amended): a failed load whose caller provided an initial state holds
that state aside and moves the machine to mustRetry when the requested file is
missing, and directly to failedRetry when the file exists but compilation
failed (so failedRetry is reachable from any state, not only from retrying);
retryLoad() returns the current state and moves it to retrying exactly when
that state is mustRetry, otherwise leaving it unchanged; and a successful
compile releases the held state and moves the machine to ok. -/
theorem retryLoad_machine_spec (m : RetryMachine) (st : YsfxState) (fe : Bool)
    (stInit : Option YsfxState) (r : RetryState) :
    (processLoadRequest m false (some st) fe =
      { failedLoad := if fe then RetryState.failedRetry else RetryState.mustRetry,
        failedLoadState := some st }) ∧
    (processLoadRequest m true stInit fe =
      { failedLoad := RetryState.ok, failedLoadState := none }) ∧
    ((retryLoad r).1 = r) ∧
    (r = RetryState.mustRetry → (retryLoad r).2 = RetryState.retrying) ∧
    (r ≠ RetryState.mustRetry → (retryLoad r).2 = r) := by
  refine ⟨?_, rfl, ?_, ?_, ?_⟩
  · cases fe <;> rfl
  · rw [retryLoad]
    split <;> rfl
  · intro hr
    rw [retryLoad, if_pos hr]
  · intro hr
    rw [retryLoad, if_neg hr]

/-- C2 counterexample: from the ok state, a load that fails to compile while
the caller provided an initial state and the file exists on disk moves the
machine to failedRetry, not to mustRetry as the claimed transition system
{ok -> mustRetry -> retrying -> (ok | failedRetry)} requires. -/
theorem retryLoad_failedRetry_cex :
    (processLoadRequest { failedLoad := RetryState.ok, failedLoadState := none }
        false (some stateA) true).failedLoad = RetryState.failedRetry ∧
    (processLoadRequest { failedLoad := RetryState.ok, failedLoadState := none }
        false (some stateA) true).failedLoad ≠ RetryState.mustRetry := by
  constructor
  · rfl
  · decide

/-! ## Presets and banks (ysfx.h, processor.cpp) -/

/-- ysfx_preset_t: a named preset holding an effect state. -/
structure Preset where
  name : String
  state : YsfxState
deriving DecidableEq, Repr

/-- ysfx_bank_t: a named, ordered list of presets. -/
structure Bank where
  name : String
  presets : List Preset
deriving DecidableEq, Repr

/-- The PresetLoadMode enum of processor.h. -/
inductive PresetLoadMode where
  | load
  | noLoad
  | deleteName
deriving DecidableEq, Repr

/-- YsfxProcessor::Impl::LoadRequest: file path plus optional initial state. -/
structure LoadRequest where
  filePath : String
  initialState : Option YsfxState
deriving DecidableEq, Repr

/-- YsfxProcessor::Impl::PresetRequest.  The info field stands for the
identity of the shared YsfxInfo pointer carried by the request. -/
structure PresetRequest where
  info : Nat
  bank : Option Bank
  index : Nat
  load : PresetLoadMode
deriving DecidableEq, Repr

/-! ## Background worker (YsfxProcessor::Impl::Background::run) -/

/-- The UndoRequest enum. -/
inductive UndoRequest where
  | noRequest
  | wantUndo
  | wantRedo
deriving DecidableEq, Repr

/-- The kinds of work one semaphore wake of the background thread can carry
out, in the order they appear in Background::run (processor.cpp 1189-1230). -/
inductive WorkerAction where
  | notifySliders
  | updateParamNames
  | processLoad
  | processPreset
  | pushUndoPoint
  | undo
  | redo
deriving DecidableEq, Repr

/-- The position of each action in the drain order of Background::run. -/
def actionRank : WorkerAction → Nat
  | WorkerAction.notifySliders => 1
  | WorkerAction.updateParamNames => 2
  | WorkerAction.processLoad => 3
  | WorkerAction.processPreset => 4
  | WorkerAction.pushUndoPoint => 5
  | WorkerAction.undo => 6
  | WorkerAction.redo => 7

/-- The pending-work slots of YsfxProcessor::Impl read by the worker:
per-group slider notification masks (m_sliderParamsToNotify), the
parameter-name invalidation flag, the two single-writer request slots, the
undo-point flag and the undo/redo request. -/
structure WorkerState where
  sliderParamsToNotify : List Nat
  updateParamNames : Bool
  loadRequest : Option LoadRequest
  presetRequest : Option PresetRequest
  wantUndoPoint : Bool
  undoRequest : UndoRequest
deriving DecidableEq, Repr

/-- One semaphore wake of YsfxProcessor::Impl::Background::run
(processor.cpp lines 1189-1230): the pending slots are drained in program
order and the performed actions are recorded left to right. -/
def backgroundRun (w : WorkerState) : WorkerState × List WorkerAction :=
  let updatedAny := w.sliderParamsToNotify.any (fun m => m ≠ 0)
  let w1 := { w with sliderParamsToNotify := w.sliderParamsToNotify.map (fun _ => 0) }
  let a1 : List WorkerAction := if updatedAny then [WorkerAction.notifySliders] else []
  let p2 :=
    if w1.updateParamNames then
      ({ w1 with updateParamNames := false }, [WorkerAction.updateParamNames])
    else (w1, [])
  let p3 :=
    match p2.1.loadRequest with
    | some _ => ({ p2.1 with loadRequest := none }, [WorkerAction.processLoad])
    | none => (p2.1, ([] : List WorkerAction))
  let p4 :=
    match p3.1.presetRequest with
    | some _ => ({ p3.1 with presetRequest := none }, [WorkerAction.processPreset])
    | none => (p3.1, ([] : List WorkerAction))
  let p5 :=
    if p4.1.wantUndoPoint then
      ({ p4.1 with wantUndoPoint := false }, [WorkerAction.pushUndoPoint])
    else (p4.1, [])
  let p6 :=
    if p5.1.undoRequest = UndoRequest.wantUndo then
      ({ p5.1 with undoRequest := UndoRequest.noRequest }, [WorkerAction.undo])
    else (p5.1, [])
  let p7 :=
    if p6.1.undoRequest = UndoRequest.wantRedo then
      ({ p6.1 with undoRequest := UndoRequest.noRequest }, [WorkerAction.redo])
    else (p6.1, [])
  (p7.1, a1 ++ p2.2 ++ p3.2 ++ p4.2 ++ p5.2 ++ p6.2 ++ p7.2)

/-- Helper: one wake of the worker in closed form - the drained state and the
canonical action list. -/
theorem backgroundRun_eq (w : WorkerState) :
    backgroundRun w =
      ({ sliderParamsToNotify := w.sliderParamsToNotify.map (fun _ => 0),
         updateParamNames := false, loadRequest := none, presetRequest := none,
         wantUndoPoint := false, undoRequest := UndoRequest.noRequest },
       (if w.sliderParamsToNotify.any (fun m => m ≠ 0) then [WorkerAction.notifySliders] else []) ++
       ((if w.updateParamNames then [WorkerAction.updateParamNames] else []) ++
       ((if w.loadRequest.isSome then [WorkerAction.processLoad] else []) ++
       ((if w.presetRequest.isSome then [WorkerAction.processPreset] else []) ++
       ((if w.wantUndoPoint then [WorkerAction.pushUndoPoint] else []) ++
       ((if w.undoRequest = UndoRequest.wantUndo then [WorkerAction.undo] else []) ++
       (if w.undoRequest = UndoRequest.wantRedo then [WorkerAction.redo] else []))))))) := by
  obtain ⟨masks, upd, lr, pr, wup, ur⟩ := w
  cases upd <;> rcases lr with _ | l <;> rcases pr with _ | p <;> cases wup <;> cases ur <;>
    simp [backgroundRun]

/-- The canonical drain list: the fixed order of Background::run filtered to
the slots that are pending. -/
def pendingActions (w : WorkerState) : List WorkerAction :=
  [WorkerAction.notifySliders, WorkerAction.updateParamNames, WorkerAction.processLoad,
   WorkerAction.processPreset, WorkerAction.pushUndoPoint, WorkerAction.undo,
   WorkerAction.redo].filter (fun a =>
    match a with
    | WorkerAction.notifySliders => w.sliderParamsToNotify.any (fun m => m ≠ 0)
    | WorkerAction.updateParamNames => w.updateParamNames
    | WorkerAction.processLoad => w.loadRequest.isSome
    | WorkerAction.processPreset => w.presetRequest.isSome
    | WorkerAction.pushUndoPoint => w.wantUndoPoint
    | WorkerAction.undo => w.undoRequest = UndoRequest.wantUndo
    | WorkerAction.redo => w.undoRequest = UndoRequest.wantRedo)

/-- Helper: choosing between a singleton and nothing, then appending. -/
theorem ite_singleton_append {c : Prop} [Decidable c] (x : WorkerAction)
    (l : List WorkerAction) :
    (if c then [x] else []) ++ l = if c then x :: l else l := by
  by_cases h : c <;> simp [h]

/-- Helper: the actions of one wake are the canonical pending list. -/
theorem backgroundRun_actions (w : WorkerState) :
    (backgroundRun w).2 = pendingActions w := by
  rw [backgroundRun_eq]
  simp only [pendingActions, List.filter_cons, List.filter_nil, ite_singleton_append,
    List.append_nil, decide_eq_true_eq]

/-- Helper: the full drain order is strictly ranked. -/
theorem pendingList_sorted :
    ([WorkerAction.notifySliders, WorkerAction.updateParamNames, WorkerAction.processLoad,
      WorkerAction.processPreset, WorkerAction.pushUndoPoint, WorkerAction.undo,
      WorkerAction.redo]).Pairwise (fun a b => actionRank a < actionRank b) := by
  decide

/-- C3: at every semaphore wake of the background worker, pending work is
drained in exactly this order: (1) pending slider-notification masks are posted
as a message-thread update, (2) pending parameter-name invalidation, (3) the
pending load request, (4) the pending preset request, (5) the undo-point push,
(6) the undo/redo request.  The recorded actions are strictly ordered by their
drain rank, each action appears exactly when its slot was pending, and after
the wake every slot has been drained. -/
theorem backgroundRun_drain_order (w : WorkerState) :
    ((backgroundRun w).2.Pairwise (fun a b => actionRank a < actionRank b)) ∧
    (WorkerAction.notifySliders ∈ (backgroundRun w).2 ↔
      ∃ m ∈ w.sliderParamsToNotify, m ≠ 0) ∧
    (WorkerAction.updateParamNames ∈ (backgroundRun w).2 ↔ w.updateParamNames = true) ∧
    (WorkerAction.processLoad ∈ (backgroundRun w).2 ↔ w.loadRequest.isSome = true) ∧
    (WorkerAction.processPreset ∈ (backgroundRun w).2 ↔ w.presetRequest.isSome = true) ∧
    (WorkerAction.pushUndoPoint ∈ (backgroundRun w).2 ↔ w.wantUndoPoint = true) ∧
    (WorkerAction.undo ∈ (backgroundRun w).2 ↔ w.undoRequest = UndoRequest.wantUndo) ∧
    (WorkerAction.redo ∈ (backgroundRun w).2 ↔ w.undoRequest = UndoRequest.wantRedo) ∧
    ((backgroundRun w).1 =
      { sliderParamsToNotify := w.sliderParamsToNotify.map (fun _ => 0),
        updateParamNames := false, loadRequest := none, presetRequest := none,
        wantUndoPoint := false, undoRequest := UndoRequest.noRequest }) := by
  refine ⟨?_, ?_, ?_, ?_, ?_, ?_, ?_, ?_, ?_⟩
  · rw [backgroundRun_actions]
    exact (pendingList_sorted).sublist (List.filter_sublist _)
  · rw [backgroundRun_actions]
    simp [pendingActions, List.mem_filter, List.any_eq_true]
  · rw [backgroundRun_actions]
    simp [pendingActions, List.mem_filter]
  · rw [backgroundRun_actions]
    simp [pendingActions, List.mem_filter]
  · rw [backgroundRun_actions]
    simp [pendingActions, List.mem_filter]
  · rw [backgroundRun_actions]
    simp [pendingActions, List.mem_filter]
  · rw [backgroundRun_actions]
    simp [pendingActions, List.mem_filter]
  · rw [backgroundRun_actions]
    simp [pendingActions, List.mem_filter]
  · rw [backgroundRun_eq]

/-! ## Preset requests and effect installation (processor.cpp) -/

/-- The preset-side fields of YsfxProcessor::Impl read and written by
processPresetRequest: the identity of the installed info pointer, the
installed bank, and the current preset name held by m_currentPresetInfo. -/
structure PresetProcState where
  info : Nat
  bank : Option Bank
  lastChosenPreset : String
deriving DecidableEq, Repr

/-- YsfxProcessor::Impl::Background::processPresetRequest (processor.cpp lines
1267-1291).  Returns the new state, the preset handed to loadNewPreset (if
any), and whether the completion flag was written.  The early returns skip the
completion write, leaving a synchronous caller waiting forever. -/
def processPresetRequest (s : PresetProcState) (req : PresetRequest) :
    PresetProcState × Option Preset × Bool :=
  if s.info ≠ req.info then
    (s, none, false)
  else
    let s1 := if s.bank ≠ req.bank then { s with bank := req.bank } else s
    match req.load with
    | PresetLoadMode.load =>
        match req.bank with
        | none => (s1, none, false)
        | some bank =>
            if h : req.index < bank.presets.length then
              let preset := bank.presets[req.index]
              ({ s1 with lastChosenPreset := preset.name }, some preset, true)
            else (s1, none, false)
    | PresetLoadMode.noLoad => (s1, none, true)
    | PresetLoadMode.deleteName => ({ s1 with lastChosenPreset := "" }, none, true)

/-- C9: for every preset request processed by the worker, if the request's
info differs from the currently installed info the request is dropped with no
state change and the completion flag is never set; and if the load mode is
load with a null bank or an index at or past the bank's preset count, no
preset is loaded and the completion flag is likewise never set, so a caller
waiting synchronously on such a request is never signalled. -/
theorem processPresetRequest_guards (s : PresetProcState) (req : PresetRequest) :
    (s.info ≠ req.info → processPresetRequest s req = (s, none, false)) ∧
    (req.load = PresetLoadMode.load →
      (req.bank = none ∨ ∀ b, req.bank = some b → b.presets.length ≤ req.index) →
      (processPresetRequest s req).2.1 = none ∧ (processPresetRequest s req).2.2 = false) := by
  constructor
  · intro h
    rw [processPresetRequest, if_pos h]
  · intro hmode hbad
    rw [processPresetRequest]
    by_cases hinfo : s.info ≠ req.info
    · rw [if_pos hinfo]
      exact ⟨rfl, rfl⟩
    · rw [if_neg hinfo, hmode]
      rcases hbank : req.bank with _ | b
      · exact ⟨rfl, rfl⟩
      · rcases hbad with hnone | hge
        · rw [hbank] at hnone
          exact Option.noConfusion hnone
        · have hle : b.presets.length ≤ req.index := hge b hbank
          simp only []
          rw [dif_neg (Nat.not_lt_of_le hle)]
          exact ⟨rfl, rfl⟩

/-- The fields of YsfxProcessor::Impl touched by installNewFx that matter for
the undo history: the installed effect's name, the undo deque, cursor and
flags, plus the bookkeeping flags the install always rewrites. -/
structure InstallState where
  infoName : String
  undoStack : List YsfxState
  undoPosition : Int
  hasUndo : Bool
  hasRedo : Bool
  wantUndoPoint : Bool
  updateParamNames : Bool
  lastChosenPreset : String
deriving DecidableEq, Repr

/-- YsfxProcessor::Impl::installNewFx (processor.cpp lines 974-1015) restricted
to the modelled fields: the notify masks, parameter rebinding and atomic
stores act on collaborators outside this model.  The undo stack and flags are
cleared only when the incoming effect's name differs from the installed one
(m_info->m_name != info->m_name); m_undoPosition is never touched. -/
def installNewFx (s : InstallState) (incomingName : String) : InstallState :=
  let s1 := { s with updateParamNames := true, wantUndoPoint := false }
  let s2 :=
    if s1.infoName ≠ incomingName then
      { s1 with undoStack := [], hasUndo := false, hasRedo := false }
    else s1
  { s2 with lastChosenPreset := "", infoName := incomingName }

/-- C10: installing a newly loaded effect clears the undo stack and resets the
has-undo and has-redo flags only when the incoming effect's name differs from
the currently installed effect's name; when the names are equal, the undo
stack, undo cursor, and both flags are preserved unchanged across the hot
swap. -/
theorem installNewFx_undo_preservation (s : InstallState) (n : String) :
    (s.infoName ≠ n →
      (installNewFx s n).undoStack = [] ∧
      (installNewFx s n).hasUndo = false ∧
      (installNewFx s n).hasRedo = false) ∧
    (s.infoName = n →
      (installNewFx s n).undoStack = s.undoStack ∧
      (installNewFx s n).undoPosition = s.undoPosition ∧
      (installNewFx s n).hasUndo = s.hasUndo ∧
      (installNewFx s n).hasRedo = s.hasRedo) := by
  constructor
  · intro h
    simp [installNewFx, h]
  · intro h
    simp [installNewFx, h]

/-! ## Preset lookup (ysfx.h line 415; ysfx_preset.cpp is not in the tree) -/

/-- Modelled from the spec: the preset lookup loop behind ysfx_preset_exists,
whose implementation file is absent from the tree; ysfx.h line 415 documents
the contract (0 on miss, index + 1 on hit) and section 4.9 of the spec states
that lookup matches names case-sensitively.  The loop scans the presets in
order and reports one past the index of the first exact name match. -/
def presetIndexPlusOne : List Preset → String → Nat
  | [], _ => 0
  | p :: rest, name =>
      if p.name = name then 1
      else
        match presetIndexPlusOne rest name with
        | 0 => 0
        | k => k + 1

/-- Modelled from the spec: ysfx_preset_exists over an optional bank handle
(processor.cpp passes a possibly null m_bank). -/
def ysfx_preset_exists (bank : Option Bank) (name : String) : Nat :=
  match bank with
  | none => 0
  | some b => presetIndexPlusOne b.presets name

/-- Helper: the scan returns 0 exactly when no preset carries the name. -/
theorem presetIndexPlusOne_eq_zero_iff (l : List Preset) (name : String) :
    presetIndexPlusOne l name = 0 ↔ ∀ p ∈ l, p.name ≠ name := by
  induction l with
  | nil => simp [presetIndexPlusOne]
  | cons p rest ih =>
      by_cases hp : p.name = name
      · simp only [presetIndexPlusOne, if_pos hp]
        simp [hp]
      · simp only [presetIndexPlusOne, if_neg hp]
        rcases hk : presetIndexPlusOne rest name with _ | k
        · simp only [List.mem_cons]
          constructor
          · intro _ q hq
            rcases hq with hq | hq
            · rw [hq]; exact hp
            · exact (ih.mp hk) q hq
          · intro _
            trivial
        · constructor
          · intro hz
            exact Nat.noConfusion hz
          · intro hall
            have : presetIndexPlusOne rest name = 0 :=
              ih.mpr (fun q hq => hall q (List.mem_cons_of_mem p hq))
            rw [this] at hk
            exact Nat.noConfusion hk

/-- Helper: a hit at the first occurrence reports its index plus one. -/
theorem presetIndexPlusOne_of_getElem (l : List Preset) (name : String) (i : Nat)
    (hnodup : (l.map Preset.name).Nodup)
    (hi : ∃ p, l[i]? = some p ∧ p.name = name) :
    presetIndexPlusOne l name = i + 1 := by
  induction l generalizing i with
  | nil =>
      rcases hi with ⟨p, hp, _⟩
      simp at hp
  | cons q rest ih =>
      rcases hi with ⟨p, hp, hpname⟩
      rcases i with _ | j
      · rw [List.getElem?_cons_zero] at hp
        have : q = p := Option.some.inj hp
        rw [presetIndexPlusOne, if_pos (by rw [this]; exact hpname)]
      · rw [List.getElem?_cons_succ] at hp
        rw [List.map_cons, List.nodup_cons] at hnodup
        have hmem : p ∈ rest := by
          rcases List.getElem?_eq_some.mp hp with ⟨hb, hget⟩
          rw [← hget]
          exact List.getElem_mem hb
        have hqne : q.name ≠ name := by
          intro hq
          apply hnodup.1
          rw [hq, ← hpname]
          exact List.mem_map_of_mem Preset.name hmem
        have hrest : presetIndexPlusOne rest name = j + 1 :=
          ih j hnodup.2 ⟨p, hp, hpname⟩
        rw [presetIndexPlusOne, if_neg hqne, hrest]
        rfl

/-- C7: for every bank and name, ysfx_preset_exists returns 0 exactly when no
preset with that name is in the bank (in particular on a null bank handle),
and returns i + 1 when the preset whose name matches case-sensitively sits at
index i, so a zero return always means absent while index zero stays
representable. -/
theorem ysfx_preset_exists_spec (b : Bank) (name : String) (i : Nat)
    (hnodup : (b.presets.map Preset.name).Nodup) :
    (ysfx_preset_exists (some b) name = 0 ↔ ∀ p ∈ b.presets, p.name ≠ name) ∧
    (∀ p, b.presets[i]? = some p → p.name = name →
      ysfx_preset_exists (some b) name = i + 1) ∧
    ysfx_preset_exists none name = 0 := by
  refine ⟨presetIndexPlusOne_eq_zero_iff b.presets name, ?_, rfl⟩
  intro p hp hpname
  exact presetIndexPlusOne_of_getElem b.presets name i hnodup ⟨p, hp, hpname⟩

/-- C7 witness: the spec theorem applied to a concrete two-preset bank, both
for a hit at index one (returning 2) and for a case-sensitive miss. -/
theorem ysfx_preset_exists_spec_witness :
    ysfx_preset_exists
        (some { name := "X",
                presets := [{ name := "p1", state := stateA },
                            { name := "p2", state := stateB }] }) "p2" = 1 + 1 ∧
    ysfx_preset_exists
        (some { name := "X",
                presets := [{ name := "p1", state := stateA },
                            { name := "p2", state := stateB }] }) "P2" = 0 := by
  constructor
  · exact (ysfx_preset_exists_spec
      { name := "X",
        presets := [{ name := "p1", state := stateA }, { name := "p2", state := stateB }] }
      "p2" 1 (by decide)).2.1
      { name := "p2", state := stateB } (by decide) (by decide)
  · exact (ysfx_preset_exists_spec
      { name := "X",
        presets := [{ name := "p1", state := stateA }, { name := "p2", state := stateB }] }
      "P2" 0 (by decide)).1.mpr (by decide)

/-! ## Slider masks (ysfx.h lines 334-345; the mask engine is not in the tree) -/

/-- Modelled from the spec: the changed and automation mask words of the
slider mask bus (section 4.5; ysfx.h lines 339-341), for the first 64-slider
group used by the scenarios.  Bits are indexed by 0-based slider index. -/
structure SliderMasks where
  changed : Nat
  automation : Nat
deriving DecidableEq, Repr

/-- Modelled from the spec: the DSL call sliderchange(sliderN) marks slider
i (0-based) in the changed mask. -/
def sliderchange (m : SliderMasks) (i : Nat) : SliderMasks :=
  { m with changed := m.changed ||| 2 ^ i }

/-- Modelled from the spec: the DSL call slider_automate(sliderN) marks
slider i (0-based) in both the changed and the automation masks, as the
repository test on slider changes records (changed picks up slider2 as
well as slider1). -/
def slider_automate (m : SliderMasks) (i : Nat) : SliderMasks :=
  { m with changed := m.changed ||| 2 ^ i, automation := m.automation ||| 2 ^ i }

/-- Modelled from the spec: ysfx_fetch_slider_changes reads the changed word
and clears it (exchange with 0). -/
def ysfx_fetch_slider_changes (m : SliderMasks) : Nat × SliderMasks :=
  (m.changed, { m with changed := 0 })

/-- Modelled from the spec: ysfx_fetch_slider_automations reads the
automation word and clears it (exchange with 0). -/
def ysfx_fetch_slider_automations (m : SliderMasks) : Nat × SliderMasks :=
  (m.automation, { m with automation := 0 })

/-- The block of scenario S3: sliderchange(slider1); slider_automate(slider2). -/
def s3Block (m : SliderMasks) : SliderMasks :=
  slider_automate (sliderchange m 0) 1

/-- C8: fetching the changed mask and the automation mask is read-and-clear:
each fetch returns the stored word and stores 0, leaving the other word
alone; consequently, after one processed block running sliderchange(slider1);
slider_automate(slider2); the first fetches return changed 0b011 and
automation 0b010, and a second pair of fetches without another block returns
0 for both masks. -/
theorem slider_fetch_read_and_clear (m : SliderMasks) :
    ((ysfx_fetch_slider_changes m).1 = m.changed) ∧
    ((ysfx_fetch_slider_changes m).2.changed = 0) ∧
    ((ysfx_fetch_slider_changes m).2.automation = m.automation) ∧
    ((ysfx_fetch_slider_automations m).1 = m.automation) ∧
    ((ysfx_fetch_slider_automations m).2.automation = 0) ∧
    ((ysfx_fetch_slider_automations m).2.changed = m.changed) ∧
    ((ysfx_fetch_slider_changes (s3Block { changed := 0, automation := 0 })).1 = 0b011) ∧
    ((ysfx_fetch_slider_automations
        (ysfx_fetch_slider_changes (s3Block { changed := 0, automation := 0 })).2).1
      = 0b010) ∧
    ((ysfx_fetch_slider_changes
        (ysfx_fetch_slider_automations
          (ysfx_fetch_slider_changes (s3Block { changed := 0, automation := 0 })).2).2).1
      = 0) ∧
    ((ysfx_fetch_slider_automations
        (ysfx_fetch_slider_automations
          (ysfx_fetch_slider_changes (s3Block { changed := 0, automation := 0 })).2).2).1
      = 0) := by
  refine ⟨rfl, rfl, rfl, rfl, rfl, rfl, ?_, ?_, ?_, ?_⟩ <;> decide

/-! ## Slider visibility (ysfx.h line 345; the visibility engine is not in
the tree) -/

/-- A slider declaration as far as visibility is concerned: its description
text, whose leading hyphen marks the slider initially hidden (spec section
4.2: desc leading - sets initially_hidden and is stripped). -/
structure SliderDecl where
  desc : String
deriving DecidableEq, Repr

/-- Modelled from the spec: a slider is initially hidden when its description
starts with a hyphen. -/
def initiallyHidden (s : SliderDecl) : Bool :=
  match s.desc.data with
  | [] => false
  | c :: _ => c = '-'

/-- Modelled from the spec: the visibility word after ysfx_init - bit i is
set exactly when slider i is declared and not initially hidden (sections 3
and 4.5; ysfx_get_slider_visibility in ysfx.h line 345). -/
def initialVisibility : List SliderDecl → Nat
  | [] => 0
  | d :: rest => (if initiallyHidden d then 0 else 1) + 2 * initialVisibility rest

/-- Modelled from the spec (section 4.5): slider_show(i, mode) with mode 1
shows slider i, mode 0 hides it, and a negative mode (-1) toggles it. -/
def slider_show (mask : Nat) (i : Nat) (mode : Int) : Nat :=
  if mode = 0 then (if mask.testBit i then mask - 2 ^ i else mask)
  else if mode < 0 then mask ^^^ 2 ^ i
  else mask ||| 2 ^ i

/-- The seven sliders of scenario S2: sliders 4-6 carry the leading hyphen. -/
def s2Sliders : List SliderDecl :=
  [{ desc := "the slider 1" }, { desc := "the slider 2" }, { desc := "the slider 3" },
   { desc := "-the slider 4" }, { desc := "-the slider 5" }, { desc := "-the slider 6" },
   { desc := "the slider 7" }]

/-- The @block of scenario S2: slider_show(1,0); slider_show(2,1);
slider_show(3,-1); slider_show(4,0); slider_show(5,1); slider_show(6,-1);
with sliderN having 0-based index N-1. -/
def s2Block (mask : Nat) : Nat :=
  slider_show (slider_show (slider_show (slider_show (slider_show (slider_show
    mask 0 0) 1 1) 2 (-1)) 3 0) 4 1) 5 (-1)

/-- C4 counterexample: for the seven-slider effect of scenario S2, the
visibility mask after init is not 0b0000111 and the mask after one block is
not 0b0110010 - slider 7 is declared without the hidden marker, so its bit 6
is set in both masks. -/
theorem s2_visibility_cex :
    ¬(initialVisibility s2Sliders = 0b0000111 ∧
      s2Block (initialVisibility s2Sliders) = 0b0110010) := by
  decide

/-- C4 (amended): for the seven-slider effect of scenario S2, the visibility
mask equals 0b1000111 after init and 0b1110010 after processing one block;
restricted to the six manipulated sliders (bits 0-5) the masks equal the
claimed 0b000111 and 0b110010, slider 7 staying visible throughout. -/
theorem s2_visibility_spec :
    initialVisibility s2Sliders = 0b1000111 ∧
    s2Block (initialVisibility s2Sliders) = 0b1110010 ∧
    initialVisibility s2Sliders % 64 = 0b000111 ∧
    s2Block (initialVisibility s2Sliders) % 64 = 0b110010 := by
  decide

/-! ## Section splitting (ysfx_parse_toplevel; ysfx_parse.cpp is not in the
tree, its behaviour is pinned by src/tests/ysfx_test_parse.cpp) -/

/-- The six named sections plus the header (the text before the first
directive). -/
inductive SectionKind where
  | header
  | init
  | slider
  | block
  | sample
  | serialize
  | gfx
deriving DecidableEq, Repr

/-- One section body: the line offset of its first directive plus one, and
its lines (joined with newlines to form the section text). -/
structure SectionText where
  lineOffset : Nat
  lines : List String
deriving DecidableEq, Repr

/-- ysfx_toplevel_t: the optional header and section bodies. -/
structure Toplevel where
  header : Option SectionText
  init : Option SectionText
  slider : Option SectionText
  block : Option SectionText
  sample : Option SectionText
  serialize : Option SectionText
  gfx : Option SectionText
deriving DecidableEq, Repr

/-- The empty toplevel with the header section pre-created at offset 0. -/
def emptyToplevel : Toplevel :=
  { header := some { lineOffset := 0, lines := [] }, init := none, slider := none,
    block := none, sample := none, serialize := none, gfx := none }

def getSection (t : Toplevel) : SectionKind → Option SectionText
  | SectionKind.header => t.header
  | SectionKind.init => t.init
  | SectionKind.slider => t.slider
  | SectionKind.block => t.block
  | SectionKind.sample => t.sample
  | SectionKind.serialize => t.serialize
  | SectionKind.gfx => t.gfx

def setSection (t : Toplevel) (k : SectionKind) (sec : SectionText) : Toplevel :=
  match k with
  | SectionKind.header => { t with header := some sec }
  | SectionKind.init => { t with init := some sec }
  | SectionKind.slider => { t with slider := some sec }
  | SectionKind.block => { t with block := some sec }
  | SectionKind.sample => { t with sample := some sec }
  | SectionKind.serialize => { t with serialize := some sec }
  | SectionKind.gfx => { t with gfx := some sec }

/-- The section a directive token names, if any. -/
def sectionKindOf (tok : String) : Option SectionKind :=
  if tok = "@init" then some SectionKind.init
  else if tok = "@slider" then some SectionKind.slider
  else if tok = "@block" then some SectionKind.block
  else if tok = "@sample" then some SectionKind.sample
  else if tok = "@serialize" then some SectionKind.serialize
  else if tok = "@gfx" then some SectionKind.gfx
  else none

/-- Modelled from the spec: directive recognition of the section splitter - a
line starting with an at sign at column 0 is a directive whose first token
names the section; an unrecognized directive is an UnknownSection error
(section 4.2; ysfx_parse.cpp is not in the tree).  Returns none for a content
line, some none for an unknown directive, some (some k) for section k. -/
def directiveOf (line : String) : Option (Option SectionKind) :=
  match line.data with
  | '@' :: _ =>
      some (sectionKindOf (String.mk (line.data.takeWhile (fun c => c ≠ ' '))))
  | _ => none

/-- Modelled from the spec: appending a content line at absolute line number
lineNo to a section pads the body with blank lines until the line lands at
index lineNo minus the section's offset, keeping every fragment at its
original source line (spec sections 4.2 and 9, note 3; behaviour pinned by
the sections-more-init case of src/tests/ysfx_test_parse.cpp). -/
def appendSectionLine (sec : SectionText) (lineNo : Nat) (line : String) : SectionText :=
  { sec with lines :=
      sec.lines ++ List.replicate (lineNo - sec.lineOffset - sec.lines.length) "" ++ [line] }

/-- Modelled from the spec: the line loop of the section splitter.  A
directive for a new section creates it with the offset of the following
line; a directive for an existing section merely switches the current
section back to it; a content line is appended to the current section. -/
def ysfx_parse_sections :
    List String → Nat → SectionKind → Toplevel → Except String Toplevel
  | [], _, _, t => Except.ok t
  | line :: rest, n, cur, t =>
      match directiveOf line with
      | none =>
          let sec := (getSection t cur).getD { lineOffset := 0, lines := [] }
          ysfx_parse_sections rest (n + 1) cur (setSection t cur (appendSectionLine sec n line))
      | some none => Except.error "UnknownSection"
      | some (some k) =>
          let t1 :=
            match getSection t k with
            | none => setSection t k { lineOffset := n + 1, lines := [] }
            | some _ => t
          ysfx_parse_sections rest (n + 1) k t1

/-- Modelled from the spec: ysfx_parse_toplevel on a source already split
into lines. -/
def ysfx_parse_toplevel (lines : List String) : Except String Toplevel :=
  ysfx_parse_sections lines 0 SectionKind.header emptyToplevel

/-- The source of the sections-more-init case of src/tests/ysfx_test_parse.cpp. -/
def moreInitInput : List String :=
  ["// the header", "@init", "the init", "@slider", "the slider, part 1",
   "the slider, part 2", "@block", "the block", "@init", "more init!", "@block",
   "more block", "@init", "more?"]

/-- C5 counterexample: when the second occurrence of a section directive does
not immediately follow the first fragment, the splitter inserts one blank
line per intervening source line, not a single blank line: on the input
@init A @slider S @init B the init body holds three blank lines between the
fragments, while the claim predicts exactly one. -/
theorem ysfx_parse_toplevel_single_blank_cex :
    ysfx_parse_toplevel ["@init", "A", "@slider", "S", "@init", "B"] =
      Except.ok
        { header := some ⟨0, []⟩, init := some ⟨1, ["A", "", "", "", "B"]⟩,
          slider := some ⟨3, ["S"]⟩, block := none, sample := none,
          serialize := none, gfx := none } ∧
    ["A", "", "", "", "B"] ≠ ["A", "", "B"] := by
  constructor
  · rfl
  · decide

/-- C5 (amended): when the section splitter encounters the same directive
twice, parsing succeeds and the bodies are concatenated into one section with
as many blank lines between the fragments as needed to keep every fragment at
its original source line - exactly one blank line when the second directive
immediately follows the first body - and the section keeps the line offset of
its first occurrence.  Verified on the repository test input (three @init and
two @block fragments) and on the adjacent-directive case. -/
theorem ysfx_parse_toplevel_more_init :
    ysfx_parse_toplevel moreInitInput =
      Except.ok
        { header := some ⟨0, ["// the header"]⟩,
          init := some ⟨2, ["the init", "", "", "", "", "", "", "more init!", "", "", "", "more?"]⟩,
          slider := some ⟨4, ["the slider, part 1", "the slider, part 2"]⟩,
          block := some ⟨7, ["the block", "", "", "", "more block"]⟩,
          sample := none, serialize := none, gfx := none } ∧
    ysfx_parse_toplevel ["@init", "A", "@init", "B"] =
      Except.ok
        { header := some ⟨0, []⟩, init := some ⟨1, ["A", "", "B"]⟩,
          slider := none, block := none, sample := none, serialize := none, gfx := none } := by
  constructor
  · rfl
  · rfl

/-! ## Header filename lines (ysfx_parse_header; ysfx_parse.cpp is not in
the tree, its behaviour is pinned by src/tests/ysfx_test_parse.cpp) -/

/-- The numeric value of a most-significant-first digit string. -/
def digitsVal (cs : List Char) : Nat :=
  cs.foldl (fun acc c => 10 * acc + (c.toNat - 48)) 0

/-- Modelled from the spec: recognition of one header line of the form
filename:(n),(path) (section 4.2; ysfx_parse.cpp is not in the tree). -/
def parseFilenameLine (line : String) : Option (Nat × String) :=
  let cs := line.data
  let pre := "filename:".data
  if pre.isPrefixOf cs then
    let rest := cs.drop pre.length
    let digits := rest.takeWhile Char.isDigit
    let after := rest.drop digits.length
    match digits, after with
    | [], _ => none
    | _ :: _, ',' :: path => some (digitsVal digits, String.mk path)
    | _ :: _, _ => none
  else none

/-- Modelled from the spec: the filename accumulation of ysfx_parse_header -
a filename line is appended exactly when its index equals the current length
of the filenames list; a mismatching line is ignored, as pinned by the
out-of-order-filenames case of src/tests/ysfx_test_parse.cpp. -/
def filenameStep (acc : List String) (line : String) : List String :=
  match parseFilenameLine line with
  | some (n, path) => if n = acc.length then acc ++ [path] else acc
  | none => acc

/-- Modelled from the spec: the filenames list ysfx_parse_header accumulates
while walking the header lines in order. -/
def ysfx_parse_header_filenames (lines : List String) : List String :=
  lines.foldl filenameStep []

/-- Helper: the filename accumulation splits over an append of line lists. -/
theorem ysfx_parse_header_filenames_append (l1 l2 : List String) :
    ysfx_parse_header_filenames (l1 ++ l2) =
      List.foldl filenameStep (ysfx_parse_header_filenames l1) l2 := by
  simp only [ysfx_parse_header_filenames, List.foldl_append]

/-- C6 counterexample: on the repository's own out-of-order test header the
line filename:1,titi is appended even though the preceding filename:2,tata
line mismatched, so a mismatching index does not stop the list - the claim
predicts the list would end at [toto]. -/
theorem ysfx_parse_header_filenames_stop_cex :
    ysfx_parse_header_filenames
        ["filename:0,toto", "filename:2,tata", "filename:1,titi"] = ["toto", "titi"] ∧
    ysfx_parse_header_filenames
        ["filename:0,toto", "filename:2,tata", "filename:1,titi"] ≠ ["toto"] := by
  constructor
  · rfl
  · decide

/-- C6 (amended): a line filename:(n),(path) is accepted only if n equals the
current length of the filenames list; a line with a mismatching index is
ignored and parsing continues, so a later filename line whose index matches
the current length is still appended (on the repository test header the
result is [toto, titi]). -/
theorem ysfx_parse_header_filenames_spec (pre : List String) (line : String)
    (n : Nat) (p : String)
    (hparse : parseFilenameLine line = some (n, p)) :
    (n = (ysfx_parse_header_filenames pre).length →
      ysfx_parse_header_filenames (pre ++ [line]) =
        ysfx_parse_header_filenames pre ++ [p]) ∧
    (n ≠ (ysfx_parse_header_filenames pre).length →
      ∀ post, ysfx_parse_header_filenames (pre ++ line :: post) =
        ysfx_parse_header_filenames (pre ++ post)) ∧
    ysfx_parse_header_filenames
      ["filename:0,toto", "filename:2,tata", "filename:1,titi"] = ["toto", "titi"] := by
  refine ⟨?_, ?_, rfl⟩
  · intro hn
    rw [ysfx_parse_header_filenames_append]
    simp only [List.foldl_cons, List.foldl_nil, filenameStep, hparse]
    rw [if_pos hn]
  · intro hn post
    rw [ysfx_parse_header_filenames_append, ysfx_parse_header_filenames_append]
    simp only [List.foldl_cons]
    have hstep : filenameStep (ysfx_parse_header_filenames pre) line =
        ysfx_parse_header_filenames pre := by
      simp only [filenameStep, hparse]
      rw [if_neg hn]
    rw [hstep]

/-- C6 witness: the amended theorem applied to concrete headers - an in-order
line is appended, and after a mismatching line the list is the same as
without it. -/
theorem ysfx_parse_header_filenames_spec_witness :
    ysfx_parse_header_filenames ([] ++ ["filename:0,x"]) =
      ysfx_parse_header_filenames [] ++ ["x"] ∧
    ysfx_parse_header_filenames ([] ++ "filename:7,y" :: ["filename:0,x"]) =
      ysfx_parse_header_filenames ([] ++ ["filename:0,x"]) :=
  ⟨(ysfx_parse_header_filenames_spec [] "filename:0,x" 0 "x" (by decide)).1 (by decide),
   (ysfx_parse_header_filenames_spec [] "filename:7,y" 7 "y" (by decide)).2.1
      (by decide) ["filename:0,x"]⟩
